import Mathlib

/-!
Shallow embedding of the wp-download download engine
(`wp_download/download.py` and `wp_download/config.py`, Python 2) in Lean 4,
together with theorems settling the specification claims.

Modelling conventions:
* Machine-level I/O (sockets, the local filesystem, the HTTP opener) is made
  explicit: a remote probe is a record of the HTTP status code and the
  advertised `Content-Length`; the local file at a path is `Option Nat`
  (its size, `none` when the file does not exist); the byte stream of one
  transfer attempt is the list of the sizes of the successive non-empty
  blocks returned by `remote_file.read`.
* Python exceptions become an inductive type.  The embedding keeps the
  Python 2 class hierarchy where it matters: `socket.error` is a subclass of
  `IOError` (Python 2.6+), while `OSError` (raised by `os.makedirs`) is NOT
  a subclass of `IOError` in Python 2, so `except IOError` does not catch it.
* Dump dates are represented by their `YYYYMMDD` numeric value (`Nat`);
  for valid dates the chronological order of the parsed `datetime` objects
  coincides with the numeric order of these values, and
  `strftime('%Y%m%d')` is the 8-digit zero-padded decimal rendering.
-/

namespace WpDownload

/-- Exceptions of `wp_download.exceptions.DownloadError` as raised by
`WPDownloader.retrieve` / `WPDownloader.retrieve_file`. -/
inductive DownloadErr where
  /-- raised in `retrieve` when the response code is >= 300 -/
  | httpStatus (code : Nat)
  /-- raised in `retrieve` when received data exceeds the advertised size -/
  | overrun
  /-- raised in `retrieve_file` when the retry limit is exceeded -/
  | retryLimit
  deriving DecidableEq, Repr

/-- Python exception classes that cross the function boundaries modelled
here.  `unboundLocalError` is what CPython raises when a local variable is
referenced before assignment. -/
inductive PyExc where
  | ioError
  | socketError
  | osError
  | downloadError
  | valueError
  | unboundLocalError
  deriving DecidableEq, Repr

/-- Python 2 semantics of `except IOError`: it catches `IOError` and its
subclasses, and `socket.error` is a subclass of `IOError` since Python 2.6,
but `OSError` is a sibling of `IOError` (both subclass `EnvironmentError`)
and is NOT caught. -/
def PyExc.caughtByExceptIOError : PyExc → Bool
  | .ioError => true
  | .socketError => true
  | _ => false

/-- Result of opening a URL: HTTP status code and advertised
`Content-Length` header value. -/
structure RemoteProbe where
  code : Nat
  contentLength : Nat
  deriving DecidableEq, Repr

/-- `WPDownloader._remote_content_length`: open the URL; if the response
code is >= 300 return 0, otherwise return the `Content-Length` header. -/
def remoteContentLength (probe : RemoteProbe) : Nat :=
  if 300 ≤ probe.code then 0 else probe.contentLength

/-- `WPDownloader._should_skip_url`: skip iff a local file exists at the
path, the remote content length equals its size, and `--force` was not
given.  `localSize` is `some s` when a file of size `s` exists at the
path and `none` otherwise. -/
def shouldSkipUrl (probe : RemoteProbe) (localSize : Option Nat)
    (force : Bool) : Bool :=
  match localSize with
  | some size => remoteContentLength probe == size && !force
  | none => false

/-- `WPDownloader._offset`: if `--resume` is given and a local file exists,
and the remote content length is at least the local size, resume from the
local size; otherwise start from 0. -/
def downloadOffset (resume : Bool) (probe : RemoteProbe)
    (localSize : Option Nat) : Nat :=
  if resume then
    match localSize with
    | some size => if remoteContentLength probe ≥ size then size else 0
    | none => 0
  else 0

/-- Initial value of the `read` counter in `WPDownloader.retrieve`: it is
initialised to 0, and set to `offset` only inside the
`if not self._options.quiet:` block (and there only when `offset` is
truthy, i.e. non-zero). -/
def retrieveReadInit (quiet : Bool) (offset : Nat) : Nat :=
  if !quiet && offset ≠ 0 then offset else 0

/-- Block-copy loop of `WPDownloader.retrieve`: for each block, write it,
add its size to `read`, and raise the overrun `DownloadError` as soon as
`read` exceeds the advertised content length.  Returns the final `read`
counter on success. -/
def transferLoop (contentLength : Nat) : Nat → List Nat → Except DownloadErr Nat
  | read, [] => .ok read
  | read, b :: rest =>
    if read + b > contentLength then .error .overrun
    else transferLoop contentLength (read + b) rest

/-- `WPDownloader.retrieve`, one transfer attempt: fail with the HTTP-status
`DownloadError` when the range response code is >= 300; otherwise stream
the body blocks through `transferLoop` starting from `retrieveReadInit`.
`offset` is the value computed by `_offset` for the `.part` path, and
`contentLength` the value of the separate `_remote_content_length` probe. -/
def retrieve (quiet : Bool) (respCode : Nat) (offset contentLength : Nat)
    (blocks : List Nat) : Except DownloadErr Nat :=
  if 300 ≤ respCode then .error (.httpStatus respCode)
  else transferLoop contentLength (retrieveReadInit quiet offset) blocks

/-! Paths and `os.path.splitext`.  `retrieve_file` appends `".part"` to the
destination path and, on success, renames the `.part` path to
`os.path.splitext(part_path)[0]`.  We embed POSIX `os.path.splitext`:
split at the last dot of the basename, unless every character of the
basename before that dot is itself a dot (leading-dot filenames such as
`.bashrc` are not split). -/

/-- POSIX `os.path.splitext` on the character list of a path.  Computed on
the reversed list: `baseRev` is the reversed basename (chars after the last
slash), `extRev` the reversed chars after the last dot of the basename. -/
def splitext (p : String) : String × String :=
  let r := p.data.reverse
  let baseRev := r.takeWhile (fun c => c != '/')
  let extRev := baseRev.takeWhile (fun c => c != '.')
  if extRev.length < baseRev.length then
    -- the basename contains a dot; split there unless all the characters
    -- of the basename before the last dot are dots
    if (baseRev.drop (extRev.length + 1)).any (fun c => c != '.') then
      (⟨p.data.take (p.data.length - (extRev.length + 1))⟩,
       ⟨p.data.drop (p.data.length - (extRev.length + 1))⟩)
    else (p, "")
  else (p, "")

/-- The basename of `p` (characters after the last `/`) contains at least
one character that is not a dot.  Under this condition
`splitext (p ++ ".part")` strips exactly the appended `".part"`. -/
def baseHasNonDot (p : String) : Bool :=
  (p.data.reverse.takeWhile (fun c => c != '/')).any (fun c => c != '.')

/-- Outcome bookkeeping for `WPDownloader.retrieve_file`: the `Except`
component is the Python-level result (success, or the raised retry-limit
`DownloadError`), the `String` component is the path at which the
(possibly partial) local file sits when the function returns. -/
abbrev RetrieveFileResult := Except DownloadErr Unit × String

/-- Loop body of `WPDownloader.retrieve_file`.  `attempts i` tells whether
the `i`-th call of `retrieve` (numbered from 0) succeeds; a failing call
raises one of `socket.error` / `IOError` / `DownloadError`, all of which
are caught and logged.  `tries` is the loop counter (incremented in the
`finally` block) and `remaining = retries - tries` is the fuel: the loop
raises the retry-limit error exactly when `tries == retries`. -/
def retrieveFileGo (attempts : Nat → Bool) (partPath finalPath : String) :
    Nat → Nat → RetrieveFileResult
  | _, 0 => (.error .retryLimit, partPath)
  | tries, remaining + 1 =>
    if attempts tries then (.ok (), finalPath)
    else retrieveFileGo attempts partPath finalPath (tries + 1) remaining

/-- `WPDownloader.retrieve_file`: append the `".part"` suffix, then loop:
raise the retry-limit `DownloadError` when `tries` reaches
`self._options.retries`; otherwise attempt `retrieve` and, on success,
rename the `.part` path to `os.path.splitext(part_path)[0]`. -/
def retrieveFile (attempts : Nat → Bool) (retries : Nat) (path : String) :
    RetrieveFileResult :=
  let part := path ++ ".part"
  retrieveFileGo attempts part (splitext part).1 0 retries

/-! Configuration (`wp_download/config.py`). -/

/-- A configuration section is the parser's sequence of options together
with their boolean values, in whatever order `ConfigParser.options`
produces them.  `getboolean` parsing is abstracted: options carry their
boolean value directly (the `ValueError` branch of `enabled_options` is
out of scope for the claims settled here). -/
abbrev ConfigSection := List (String × Bool)

/-- The enabled option names in parser order, before sorting: the inner
generator `_enabled_options` of `Configuration.enabled_options`. -/
def enabledOptionsUnsorted (sec : ConfigSection) : List String :=
  (sec.filter (fun o => o.2)).map (fun o => o.1)

/-- `Configuration.enabled_options`: the enabled option names of a section,
passed through Python's `sorted` (ascending lexicographic order on
strings). -/
def enabledOptions (sec : ConfigSection) : List String :=
  (enabledOptionsUnsorted sec).insertionSort (· ≤ ·)

/-! URL handler (`URLHandler` in `wp_download/download.py`). -/

/-- The result of `urlparse.urlsplit` on a URL; `urlparse.urlunsplit`
reassembles exactly these five components, so a constructed download URL
is faithfully represented by this record. -/
structure UrlParts where
  scheme : String
  netloc : String
  path : String
  query : String
  fragment : String
  deriving DecidableEq, Repr

/-- The configuration data consumed by `URLHandler`: the split `base_url`,
the two operator-supplied `string.Template`s (modelled as the substitution
functions they denote), the `Filetypes` section lookup and the `Files`
section. -/
structure URLConfig where
  host : UrlParts
  langDirTemplate : String → String
  fileTemplate : String → String → String → String → String
  filetypes : String → String
  filesSection : ConfigSection

/-- `URLHandler.language_dir`: the sentinel language `entities` maps to the
fixed directory, all others through the `language_dir_format` template. -/
def languageDir (cfg : URLConfig) (language : String) : String :=
  if language == "entities" then "wikidatawiki/entities"
  else cfg.langDirTemplate language

/-- `strftime('%Y%m%d')` of the date with numeric value `d`: the 8-digit
zero-padded decimal rendering. -/
def dateStr (d : Nat) : String :=
  let s := toString d
  ⟨List.replicate (8 - s.length) '0' ++ s.data⟩

/-- Date sentinel `datetime.strptime('19000101', '%Y%m%d')` appended to the
discovered dates in `URLHandler.latest_dump_date`. -/
def sentinelDate : Nat := 19000101

/-- Value of `max(dates + [sentinel])` in `URLHandler.latest_dump_date`,
where `ds` is the list of dates extracted from the listing page by
`dump_dates` (the regex matches are abstracted to the list of date values
they parse to). -/
def latestFromListing (ds : List Nat) : Nat :=
  ds.foldl Nat.max sentinelDate

/-- Python `dict(pairs)` lookup: later pairs override earlier ones.  The
`--custom-dump` pairs are modelled pre-split at the first `:` and with the
date already parsed (the spec's custom override mapping is from language
code to a dump date). -/
def dictLookup (pairs : List (String × Nat)) (k : String) : Option Nat :=
  pairs.reverse.lookup k

/-- `URLHandler.latest_dump_date`: return the custom override when one
exists for the language (without consulting the listing); otherwise the
maximum of the listing dates and the 1900 sentinel.  `listing` is the
outcome of fetching the listing page in `dump_dates`: `.error e` when the
fetch raises (`dump_dates` logs and re-raises the `IOError`). -/
def latestDumpDate (custom : List (String × Nat)) (language : String)
    (listing : Except PyExc (List Nat)) : Except PyExc Nat :=
  match dictLookup custom language with
  | some d => .ok d
  | none =>
    match listing with
    | .error e => .error e
    | .ok ds => .ok (latestFromListing ds)

/-- Server path built in `URLHandler.urls_for_language` for one enabled
file type: for `entities` the fixed `wikidata-<date>-all.json.gz` name,
otherwise the `file_format` template applied to the language, date,
filename and the `Filetypes` entry for the filename. -/
def serverPath (cfg : URLConfig) (language : String) (latest : Nat)
    (filename : String) : String :=
  if language == "entities" then
    languageDir cfg language ++ "/" ++ dateStr latest ++ "/" ++
      ("wikidata-" ++ dateStr latest ++ "-all.json.gz")
  else
    languageDir cfg language ++ "/" ++ dateStr latest ++ "/" ++
      cfg.fileTemplate language (dateStr latest) filename
        (cfg.filetypes filename)

/-- URL yielded by `urls_for_language` for one enabled file type:
`urlunsplit` of the split `base_url` with its path replaced by the server
path. -/
def buildUrl (cfg : URLConfig) (language : String) (latest : Nat)
    (filename : String) : UrlParts :=
  { cfg.host with path := serverPath cfg language latest filename }

/-- `URLHandler.urls_for_language`, as the pair of (1) the list of values
the generator yields and (2) the exception, if any, it raises after the
last yield.  When `latest_dump_date` raises an `IOError` the `except`
block logs and executes a bare `yield` (yielding Python `None`, modelled
as `Option.none`); lacking a `return`, the generator then falls through to
the `LOG.info` line that reads the never-assigned local `latest`, raising
`UnboundLocalError` on the next resumption.  On success it yields one URL
per enabled file, in `enabled_files()` order. -/
def urlsForLanguage (cfg : URLConfig) (custom : List (String × Nat))
    (language : String) (listing : Except PyExc (List Nat)) :
    List (Option UrlParts) × Option PyExc :=
  match latestDumpDate custom language listing with
  | .error _ => ([none], some .unboundLocalError)
  | .ok latest =>
    ((enabledOptions cfg.filesSection).map
      (fun fn => some (buildUrl cfg language latest fn)), none)

/-! Batch loop (`WPDownloader.download_language` /
`download_all_languages`). -/

/-- Exception raised out of `WPDownloader.download_language` for one
language, if any: `_create_download_dirs` first resolves the dump date
(re-raising the discovery `IOError` when the listing fetch fails), then
calls `os.makedirs`, which raises `OSError` on failure.  The per-file
`DownloadError`s of `retrieve_files` are caught inside `retrieve_files`
and never reach this level. -/
def downloadLanguageOutcome (discovery : Except PyExc Unit)
    (mkdirFails : Bool) : Option PyExc :=
  match discovery with
  | .error e => some e
  | .ok _ => if mkdirFails then some .osError else none

/-- `WPDownloader.download_all_languages`: iterate the enabled languages;
`except IOError` catches a raised exception only when it is an `IOError`
(Python 2: this includes `socket.error` but not `OSError`), logs, and
continues with the next language; any other exception propagates and
aborts the batch.  Returns the list of languages that were attempted on
success. -/
def downloadAllLanguages (run : String → Option PyExc) :
    List String → Except PyExc (List String)
  | [] => .ok []
  | l :: ls =>
    match run l with
    | none => (downloadAllLanguages run ls).map (fun r => l :: r)
    | some e =>
      if e.caughtByExceptIOError then
        (downloadAllLanguages run ls).map (fun r => l :: r)
      else .error e

/-! Sample configuration used to instantiate closed statements. -/

/-- A concrete `URLConfig`, with templates instantiated the way the shipped
configuration file instantiates `language_dir_format` and `file_format`. -/
def sampleConfig : URLConfig where
  host := { scheme := "http", netloc := "dumps.wikimedia.org", path := "/",
            query := "", fragment := "" }
  langDirTemplate := fun lang => lang ++ "wiki"
  fileTemplate := fun lang date filename filetype =>
    lang ++ "wiki-" ++ date ++ "-" ++ filename ++ filetype
  filetypes := fun _ => ".sql.gz"
  filesSection := [("pagelinks", true), ("abstract", true), ("redirect", false)]

/-! Claim theorems. -/

/-- C3: `_should_skip_url` returns true iff a local file exists, its size
equals the probed remote content length, and `--force` is off; with
`--force` it returns false regardless; and since a probe status >= 300
yields remote content length 0, a non-empty local file is never skipped
against a broken remote resource. -/
theorem should_skip_url_spec (probe : RemoteProbe) (localSize : Option Nat)
    (force : Bool) :
    (shouldSkipUrl probe localSize force = true ↔
      (∃ s, localSize = some s ∧ remoteContentLength probe = s) ∧
        force = false) ∧
    (force = true → shouldSkipUrl probe localSize force = false) ∧
    (300 ≤ probe.code → ∀ s, localSize = some s → 0 < s →
      shouldSkipUrl probe localSize force = false) := by
  refine ⟨?_, ?_, ?_⟩
  · cases localSize with
    | none => simp [shouldSkipUrl]
    | some s =>
      simp only [shouldSkipUrl, Bool.and_eq_true, beq_iff_eq, Bool.not_eq_true']
      constructor
      · rintro ⟨h1, h2⟩
        exact ⟨⟨s, rfl, h1⟩, h2⟩
      · rintro ⟨⟨t, ht, hlen⟩, hf⟩
        cases ht
        exact ⟨hlen, hf⟩
  · intro hf
    cases localSize with
    | none => rfl
    | some s => simp [shouldSkipUrl, hf]
  · intro hcode s hs hpos
    cases hs
    have hlen : remoteContentLength probe = 0 := by
      simp [remoteContentLength, hcode]
    simp [shouldSkipUrl, hlen]
    omega

/-- C3 witness: a 404 probe against a non-empty 5-byte local file is not
skipped. -/
theorem should_skip_url_spec_witness :
    shouldSkipUrl ⟨404, 999⟩ (some 5) false = false :=
  (should_skip_url_spec ⟨404, 999⟩ (some 5) false).2.2 (by decide) 5 rfl
    (by decide)

/-- C4: `_offset` returns 0 whenever resume is disabled, the local file is
absent, or the remote content length is below the local size; otherwise it
returns the local file size. -/
theorem offset_spec (resume : Bool) (probe : RemoteProbe)
    (localSize : Option Nat) :
    (resume = false → downloadOffset resume probe localSize = 0) ∧
    (localSize = none → downloadOffset resume probe localSize = 0) ∧
    (∀ s, localSize = some s → remoteContentLength probe < s →
      downloadOffset resume probe localSize = 0) ∧
    (∀ s, localSize = some s → resume = true →
      s ≤ remoteContentLength probe →
      downloadOffset resume probe localSize = s) := by
  refine ⟨?_, ?_, ?_, ?_⟩
  · intro h; simp [downloadOffset, h]
  · intro h; cases resume <;> simp [downloadOffset, h]
  · intro s hs hlt
    cases hs
    cases resume <;> simp [downloadOffset]
    omega
  · intro s hs hr hle
    cases hs
    simp [downloadOffset, hr, hle]

/-- C4 witness: resume enabled, 1000-byte local file, 5000-byte remote:
offset 1000. -/
theorem offset_spec_witness :
    downloadOffset true ⟨200, 5000⟩ (some 1000) = 1000 :=
  (offset_spec true ⟨200, 5000⟩ (some 1000)).2.2.2 1000 rfl rfl (by
    simp [remoteContentLength])

/-- The block-copy loop raises the overrun error exactly when at least one
block arrives and the counter plus the received bytes exceed the
advertised content length. -/
theorem transferLoop_error_iff (cl : Nat) :
    ∀ (blocks : List Nat) (read : Nat),
      transferLoop cl read blocks = .error .overrun ↔
        blocks ≠ [] ∧ cl < read + blocks.sum := by
  intro blocks
  induction blocks with
  | nil => intro read; simp [transferLoop]
  | cons b rest ih =>
    intro read
    by_cases hb : read + b > cl
    · simp only [transferLoop, if_pos hb, List.sum_cons]
      refine ⟨fun _ => ⟨by simp, by omega⟩, fun _ => by trivial⟩
    · simp only [transferLoop, if_neg hb, List.sum_cons, ih (read + b)]
      constructor
      · rintro ⟨hne, hgt⟩
        exact ⟨by simp, by omega⟩
      · rintro ⟨-, hgt⟩
        refine ⟨?_, by omega⟩
        intro hnil
        subst hnil
        simp at hgt
        omega

/-- C5 counterexample: on a resumed attempt in quiet mode (offset 1000,
probed length 5000) the `read` counter starts at 0, not at the offset, so
a server that ignores the range request and re-sends the whole 5000-byte
body onto the 1000-byte partial file completes without any overrun error,
although the counter as described by the claim (counting from the offset)
would reach 6000 > 5000. -/
theorem retrieve_overrun_counterexample :
    retrieveReadInit true 1000 = 0 ∧
    5000 < 1000 + ([4096, 904] : List Nat).sum ∧
    retrieve true 200 1000 5000 [4096, 904] = .ok 5000 := by
  refine ⟨rfl, by norm_num, ?_⟩
  rfl

/-- C5 amended: `retrieve` raises the overrun `DownloadError` exactly when
some block arrives and the `read` counter plus the received bytes exceed
the probed content length — but the counter starts at the resume offset
only when progress reporting is enabled (`quiet = false`); in quiet mode
it starts at 0, counting only the bytes received by this attempt. -/
theorem retrieve_overrun_amended (quiet : Bool) (offset cl : Nat)
    (blocks : List Nat) :
    (retrieve quiet 200 offset cl blocks = .error .overrun ↔
      blocks ≠ [] ∧ cl < retrieveReadInit quiet offset + blocks.sum) ∧
    retrieveReadInit false offset = offset ∧
    retrieveReadInit true offset = 0 := by
  refine ⟨?_, ?_, rfl⟩
  · have h200 : ¬ (300 ≤ 200) := by omega
    simp only [retrieve, if_neg h200]
    exact transferLoop_error_iff cl blocks (retrieveReadInit quiet offset)
  · by_cases h : offset = 0
    · subst h; rfl
    · simp [retrieveReadInit, h]

/-- The initial accumulator is a lower bound of a left max-fold. -/
theorem le_foldl_max : ∀ (l : List Nat) (a : Nat), a ≤ l.foldl Nat.max a := by
  intro l
  induction l with
  | nil => intro a; exact Nat.le_refl a
  | cons b rest ih =>
    intro a
    calc a ≤ Nat.max a b := Nat.le_max_left a b
    _ ≤ rest.foldl Nat.max (Nat.max a b) := ih (Nat.max a b)

/-- Every member of the list is bounded by a left max-fold over it. -/
theorem mem_le_foldl_max :
    ∀ (l : List Nat) (a d : Nat), d ∈ l → d ≤ l.foldl Nat.max a := by
  intro l
  induction l with
  | nil => intro a d h; cases h
  | cons b rest ih =>
    intro a d h
    rcases List.mem_cons.mp h with h | h
    · subst h
      calc d ≤ Nat.max a d := Nat.le_max_right a d
      _ ≤ rest.foldl Nat.max (Nat.max a d) := le_foldl_max rest _
    · exact ih (Nat.max a b) d h

/-- A left max-fold is either the initial accumulator or a member of the
list. -/
theorem foldl_max_eq_init_or_mem :
    ∀ (l : List Nat) (a : Nat), l.foldl Nat.max a = a ∨ l.foldl Nat.max a ∈ l := by
  intro l
  induction l with
  | nil => intro a; exact Or.inl rfl
  | cons b rest ih =>
    intro a
    rcases ih (Nat.max a b) with h | h
    · have hchoice : Nat.max a b = a ∨ Nat.max a b = b := by
        rcases Nat.le_total a b with hab | hab
        · exact Or.inr (Nat.max_eq_right hab)
        · exact Or.inl (Nat.max_eq_left hab)
      rcases hchoice with hm | hm
      · exact Or.inl (by simpa [hm] using h)
      · refine Or.inr (List.mem_cons.mpr (Or.inl ?_))
        simpa [hm] using h
    · exact Or.inr (List.mem_cons.mpr (Or.inr h))

/-- C6 counterexample: a listing page whose only date token is `18991231`
(a valid 8-digit date, earlier than the sentinel) makes
`latest_dump_date` return the 1900 sentinel instead of
max(D1..Dn) = 18991231. -/
theorem latest_dump_date_counterexample :
    latestDumpDate [] "fr" (.ok [18991231]) = .ok 19000101 ∧
    (19000101 : Nat) ≠ 18991231 := by
  exact ⟨rfl, by omega⟩

/-- C6 amended: without a custom override, `latest_dump_date` returns the
maximum of the listed dates and the 1900 sentinel: the sentinel for an
empty listing, and the latest listed date whenever that date is on or
after 1900-01-01. -/
theorem latest_dump_date_amended (custom : List (String × Nat))
    (lang : String) (ds : List Nat) (h : dictLookup custom lang = none) :
    latestDumpDate custom lang (.ok ds) = .ok (latestFromListing ds) ∧
    (ds = [] → latestFromListing ds = sentinelDate) ∧
    sentinelDate ≤ latestFromListing ds ∧
    (∀ d ∈ ds, d ≤ latestFromListing ds) ∧
    (latestFromListing ds = sentinelDate ∨ latestFromListing ds ∈ ds) := by
  refine ⟨?_, ?_, ?_, ?_, ?_⟩
  · simp [latestDumpDate, h]
  · intro hnil; subst hnil; rfl
  · exact le_foldl_max ds sentinelDate
  · intro d hd; exact mem_le_foldl_max ds sentinelDate d hd
  · exact foldl_max_eq_init_or_mem ds sentinelDate

/-- C6 witness: a listing with dates 20230101 and 20230201 resolves to
20230201. -/
theorem latest_dump_date_amended_witness :
    latestDumpDate [] "en" (.ok [20230101, 20230201]) = .ok 20230201 := by
  have h := (latest_dump_date_amended [] "en" [20230101, 20230201] rfl).1
  simpa [latestFromListing, sentinelDate] using h

/-- C7: with a custom override for the language, `latest_dump_date`
returns exactly the overridden date whatever the outcome of the listing
fetch would be — in particular even when it would fail, so the listing
page is never consulted. -/
theorem custom_override_spec (custom : List (String × Nat)) (lang : String)
    (d : Nat) (h : dictLookup custom lang = some d) :
    ∀ listing, latestDumpDate custom lang listing = .ok d := by
  intro listing
  simp [latestDumpDate, h]

/-- C7 witness: the override `de:20221220` is returned although the
listing fetch raises an `IOError`. -/
theorem custom_override_spec_witness :
    latestDumpDate [("de", 20221220)] "de" (.error .ioError) = .ok 20221220 :=
  custom_override_spec [("de", 20221220)] "de" 20221220 rfl (.error .ioError)

/-- C2: when date resolution fails with an `IOError`, the
`urls_for_language` generator does not produce an empty sequence: it
yields exactly one element, the Python `None` produced by the bare
`yield` in the `except` block, and then raises `UnboundLocalError` from
the `LOG.info` line that reads the never-assigned `latest`.  This theorem
evaluates the code at the failing input. -/
theorem urls_for_language_io_error_yields_none :
    urlsForLanguage sampleConfig [] "en" (.error .ioError) =
      ([none], some .unboundLocalError) ∧
    ([(none : Option UrlParts)], some PyExc.unboundLocalError).1 ≠ [] := by
  exact ⟨rfl, by simp⟩

/-- C8 counterexample: a directory-creation failure for the first language
raises `OSError`, which `except IOError` does not catch in Python 2, so
the batch aborts instead of skipping the language: with languages
`["ar", "de"]` and `os.makedirs` failing for `ar`, `download_all_languages`
propagates the `OSError` and `de` is never processed. -/
theorem download_all_languages_counterexample :
    downloadAllLanguages
      (fun l => downloadLanguageOutcome (.ok ()) (l == "ar")) ["ar", "de"] =
      .error .osError ∧
    PyExc.osError.caughtByExceptIOError = false := by
  exact ⟨rfl, rfl⟩

/-- C8 amended: `download_all_languages` continues past every language
whose failure is raised as an `IOError` (which in Python 2 includes
`socket.error` and the date-discovery failures, but not the `OSError` of a
directory-creation failure): if each language either succeeds or fails
with an exception caught by `except IOError`, every language is attempted
and the batch completes. -/
theorem download_all_languages_amended (run : String → Option PyExc) :
    ∀ langs : List String,
      (∀ l ∈ langs, ∀ e, run l = some e → e.caughtByExceptIOError = true) →
      downloadAllLanguages run langs = .ok langs := by
  intro langs
  induction langs with
  | nil => intro _; rfl
  | cons l ls ih =>
    intro h
    have hrest : downloadAllLanguages run ls = .ok ls :=
      ih (fun x hx e he => h x (List.mem_cons.mpr (Or.inr hx)) e he)
    cases hrun : run l with
    | none => simp [downloadAllLanguages, hrun, hrest, Except.map]
    | some e =>
      have hc : e.caughtByExceptIOError = true :=
        h l (List.mem_cons.mpr (Or.inl rfl)) e hrun
      simp [downloadAllLanguages, hrun, hc, hrest, Except.map]

/-- C8 witness: date discovery fails with `IOError` for both languages;
both are skipped and the batch completes. -/
theorem download_all_languages_amended_witness :
    downloadAllLanguages
      (fun _ => downloadLanguageOutcome (.error .ioError) false)
      ["ar", "de"] = .ok ["ar", "de"] := by
  refine download_all_languages_amended _ ["ar", "de"] ?_
  intro l _ e he
  have he2 : some PyExc.ioError = some e := he
  injection he2 with he3
  rw [← he3]
  rfl

/-- C9 counterexample: `Configuration.enabled_options` passes the enabled
option names through Python's `sorted`, so with a `Files` section
enumerating `redirects` before `abstract` the produced order is the
lexicographically sorted `["abstract", "redirects"]`, not the
configuration's enumerated order `["redirects", "abstract"]`. -/
theorem enabled_options_counterexample :
    enabledOptionsUnsorted [("redirects", true), ("abstract", true)] =
      ["redirects", "abstract"] ∧
    enabledOptions [("redirects", true), ("abstract", true)] =
      ["abstract", "redirects"] ∧
    enabledOptions [("redirects", true), ("abstract", true)] ≠
      ["redirects", "abstract"] := by
  have heq : enabledOptions [("redirects", true), ("abstract", true)] =
      ["abstract", "redirects"] := by
    simp only [enabledOptions, enabledOptionsUnsorted, List.filter, List.map,
      List.insertionSort, List.orderedInsert]
    norm_num
    decide
  refine ⟨rfl, heq, ?_⟩
  rw [heq]
  intro h
  have hh : "abstract" = "redirects" := by injection h
  simp at hh

/-- C9 amended: languages and files are both produced by
`enabled_options`, which emits the enabled option names in ascending
lexicographic order (a permutation of the parser's enumeration, not the
enumeration order itself); within a language, `urls_for_language` yields
exactly one URL per element of that sorted enabled-file sequence, in that
sequence's order. -/
theorem enabled_options_amended (sec : ConfigSection) :
    List.Sorted (· ≤ ·) (enabledOptions sec) ∧
    (enabledOptions sec).Perm (enabledOptionsUnsorted sec) ∧
    (∀ (cfg : URLConfig) (custom : List (String × Nat)) (lang : String)
      (listing : Except PyExc (List Nat)) (d : Nat),
      latestDumpDate custom lang listing = .ok d →
      (urlsForLanguage cfg custom lang listing).1 =
        (enabledOptions cfg.filesSection).map
          (fun fn => some (buildUrl cfg lang d fn))) := by
  refine ⟨?_, ?_, ?_⟩
  · exact List.sorted_insertionSort (· ≤ ·) (enabledOptionsUnsorted sec)
  · exact List.perm_insertionSort (· ≤ ·) (enabledOptionsUnsorted sec)
  · intro cfg custom lang listing d h
    simp [urlsForLanguage, h]

/-- C9 witness: with the section of the counterexample, the amended
theorem instantiates to the sorted sequence and the matching URL list. -/
theorem enabled_options_amended_witness :
    List.Sorted (· ≤ ·)
      (enabledOptions [("redirects", true), ("abstract", true)]) ∧
    (urlsForLanguage sampleConfig [("en", 20230201)] "en"
      (.error .ioError)).1 =
      (enabledOptions sampleConfig.filesSection).map
        (fun fn => some (buildUrl sampleConfig "en" 20230201 fn)) :=
  ⟨(enabled_options_amended [("redirects", true), ("abstract", true)]).1,
   (enabled_options_amended []).2.2 sampleConfig [("en", 20230201)] "en"
     (.error .ioError) 20230201 rfl⟩

/-- The URL `urls_for_language` yields for every enabled file type of the
sentinel language `entities`: the filename part is fixed and does not
mention the file type. -/
def entitiesUrl (cfg : URLConfig) (d : Nat) : UrlParts :=
  { cfg.host with
    path := "wikidatawiki/entities" ++ "/" ++ dateStr d ++ "/" ++
      ("wikidata-" ++ dateStr d ++ "-all.json.gz") }

/-- C10: for the sentinel language `entities` the generated server path
does not depend on the file-type name, so `urls_for_language` yields the
same URL once per enabled file type — `n` identical elements for `n`
enabled file types — and that URL's path ends with
`wikidata-<date>-all.json.gz`. -/
theorem entities_urls_spec (cfg : URLConfig) (custom : List (String × Nat))
    (listing : Except PyExc (List Nat)) (d : Nat)
    (h : latestDumpDate custom "entities" listing = .ok d) :
    (urlsForLanguage cfg custom "entities" listing).1 =
      List.replicate (enabledOptions cfg.filesSection).length
        (some (entitiesUrl cfg d)) ∧
    (∃ pre, (entitiesUrl cfg d).path =
      pre ++ ("wikidata-" ++ dateStr d ++ "-all.json.gz")) := by
  constructor
  · have hbuild : ∀ fn, buildUrl cfg "entities" d fn = entitiesUrl cfg d := by
      intro fn
      simp [buildUrl, entitiesUrl, serverPath, languageDir]
    simp only [urlsForLanguage, h]
    rw [show (fun fn => some (buildUrl cfg "entities" d fn)) =
        (fun _ => some (entitiesUrl cfg d)) from funext fun fn => by
          rw [hbuild fn]]
    exact List.map_const' _ _
  · exact ⟨"wikidatawiki/entities" ++ "/" ++ dateStr d ++ "/", rfl⟩

/-- C10 witness: with the sample configuration (two enabled file types)
and an `entities` override of 20240401, the generator yields the fixed
wikidata URL twice. -/
theorem entities_urls_spec_witness :
    (urlsForLanguage sampleConfig [("entities", 20240401)] "entities"
      (.error .ioError)).1 =
      List.replicate 2 (some (entitiesUrl sampleConfig 20240401)) := by
  have h := (entities_urls_spec sampleConfig [("entities", 20240401)]
    (.error .ioError) 20240401 rfl).1
  have hlen : (enabledOptions sampleConfig.filesSection).length = 2 := by
    unfold enabledOptions
    rw [List.length_insertionSort]
    rfl
  rw [hlen] at h
  exact h

/-- Splitting the extension off `p ++ ".part"` recovers `p` whenever the
basename of `p` has at least one non-dot character (every real dump
filename does); this is the rename target computed by `retrieve_file`. -/
theorem splitext_append_part (p : String) (h : baseHasNonDot p = true) :
    (splitext (p ++ ".part")).1 = p := by
  have hdata : (p ++ ".part").data = p.data ++ ['.', 'p', 'a', 'r', 't'] := by
    rw [String.data_append]
  unfold splitext
  simp only [hdata, List.reverse_append]
  have h1 : ((['.', 'p', 'a', 'r', 't'] : List Char).reverse ++
      p.data.reverse).takeWhile (fun c => c != '/') =
      't' :: 'r' :: 'a' :: 'p' :: '.' ::
        (p.data.reverse.takeWhile (fun c => c != '/')) := rfl
  rw [h1]
  have h2 : ('t' :: 'r' :: 'a' :: 'p' :: '.' ::
      (p.data.reverse.takeWhile (fun c => c != '/'))).takeWhile
        (fun c => c != '.') = ['t', 'r', 'a', 'p'] := rfl
  rw [h2]
  have hlt : (['t', 'r', 'a', 'p'] : List Char).length <
      ('t' :: 'r' :: 'a' :: 'p' :: '.' ::
        (p.data.reverse.takeWhile (fun c => c != '/'))).length := by
    simp
  rw [if_pos hlt]
  have h3 : ('t' :: 'r' :: 'a' :: 'p' :: '.' ::
      (p.data.reverse.takeWhile (fun c => c != '/'))).drop
        ((['t', 'r', 'a', 'p'] : List Char).length + 1) =
      p.data.reverse.takeWhile (fun c => c != '/') := rfl
  rw [h3]
  have hany : ((p.data.reverse.takeWhile (fun c => c != '/')).any
      fun c => c != '.') = true := h
  rw [if_pos hany]
  have hlen : (p.data ++ ['.', 'p', 'a', 'r', 't']).length -
      ((['t', 'r', 'a', 'p'] : List Char).length + 1) = p.data.length := by
    simp
  rw [hlen]
  have htake : (p.data ++ ['.', 'p', 'a', 'r', 't']).take p.data.length =
      p.data := List.take_left p.data _
  rw [htake]

/-- If the first `remaining` attempts starting at `tries` all fail, the
retry loop raises the retry-limit error and leaves the file at the
`.part` path. -/
theorem retrieveFileGo_fail (attempts : Nat → Bool) (pp fp : String) :
    ∀ (remaining tries : Nat),
      (∀ j, j < remaining → attempts (tries + j) = false) →
      retrieveFileGo attempts pp fp tries remaining =
        (.error .retryLimit, pp) := by
  intro remaining
  induction remaining with
  | zero => intro tries _; rfl
  | succ n ih =>
    intro tries hfail
    have h0 : attempts tries = false := by
      simpa using hfail 0 (Nat.succ_pos n)
    show (if attempts tries then _ else _) = _
    rw [h0]
    simp only [Bool.false_eq_true, if_false]
    exact ih (tries + 1) (fun j hj => by
      have := hfail (j + 1) (Nat.succ_lt_succ hj)
      simpa [Nat.add_assoc, Nat.add_comm 1 j] using this)

/-- If attempts `tries .. tries+k-1` fail and attempt `tries+k` succeeds
with `k` strictly below the remaining budget, the retry loop succeeds and
the file sits at the final path. -/
theorem retrieveFileGo_success (attempts : Nat → Bool) (pp fp : String) :
    ∀ (k remaining tries : Nat),
      (∀ j, j < k → attempts (tries + j) = false) →
      attempts (tries + k) = true → k < remaining →
      retrieveFileGo attempts pp fp tries remaining = (.ok (), fp) := by
  intro k
  induction k with
  | zero =>
    intro remaining tries _ hsucc hlt
    cases remaining with
    | zero => omega
    | succ n =>
      show (if attempts tries then _ else _) = _
      rw [show attempts tries = true by simpa using hsucc]
      simp
  | succ m ih =>
    intro remaining tries hfail hsucc hlt
    cases remaining with
    | zero => omega
    | succ n =>
      have h0 : attempts tries = false := by
        simpa using hfail 0 (Nat.succ_pos m)
      show (if attempts tries then _ else _) = _
      rw [h0]
      simp only [Bool.false_eq_true, if_false]
      refine ih n (tries + 1) (fun j hj => ?_) ?_ (by omega)
      · have := hfail (j + 1) (Nat.succ_lt_succ hj)
        simpa [Nat.add_assoc, Nat.add_comm 1 j] using this
      · have hs : tries + 1 + m = tries + (m + 1) := by omega
        rw [hs]
        exact hsucc

/-- C1: if the transfer fails exactly `k` times with `k < retries` and
then succeeds, `retrieve_file` terminates successfully and the local file
sits at the destination path with no `.part` suffix (the temp path was
renamed); if all attempts fail until `tries` reaches `retries`, the
retry-limit `DownloadError` is raised and the partial file remains at the
`.part` path. -/
theorem retrieve_file_retry_spec (attempts : Nat → Bool) (retries k : Nat)
    (path : String) (hbase : baseHasNonDot path = true) :
    ((∀ i, i < k → attempts i = false) → attempts k = true → k < retries →
      retrieveFile attempts retries path = (.ok (), path)) ∧
    ((∀ i, i < retries → attempts i = false) →
      retrieveFile attempts retries path =
        (.error .retryLimit, path ++ ".part")) := by
  constructor
  · intro h1 h2 h3
    show retrieveFileGo attempts (path ++ ".part")
      (splitext (path ++ ".part")).1 0 retries = (.ok (), path)
    rw [splitext_append_part path hbase]
    exact retrieveFileGo_success attempts (path ++ ".part") path k retries 0
      (fun j hj => by simpa using h1 j hj) (by simpa using h2) h3
  · intro hfail
    show retrieveFileGo attempts (path ++ ".part")
      (splitext (path ++ ".part")).1 0 retries =
        (.error .retryLimit, path ++ ".part")
    exact retrieveFileGo_fail attempts (path ++ ".part") _ retries 0
      (fun j hj => by simpa using hfail j hj)

/-- C1 witness: with attempts failing twice then succeeding and a retry
budget of 5, the file ends at the destination path; with every attempt
failing and a budget of 3, the retry-limit error is raised and the file
remains at the `.part` path. -/
theorem retrieve_file_retry_spec_witness :
    retrieveFile (fun i => i == 2) 5 "en/20230201/pages.sql.gz" =
      (.ok (), "en/20230201/pages.sql.gz") ∧
    retrieveFile (fun _ => false) 3 "en/20230201/pages.sql.gz" =
      (.error .retryLimit, "en/20230201/pages.sql.gz.part") :=
  ⟨(retrieve_file_retry_spec (fun i => i == 2) 5 2 "en/20230201/pages.sql.gz"
      (by decide)).1 (by decide) (by decide) (by decide),
   (retrieve_file_retry_spec (fun _ => false) 3 0 "en/20230201/pages.sql.gz"
      (by decide)).2 (by decide)⟩

end WpDownload
